import Mathlib

/-!
Shallow embedding of the document-workflow server (src/server/routes.ts,
src/server/storage.ts, src/shared/schema.ts).

Conventions of the embedding:
* Timestamps (JS `Date` / `Date.now()`) are `Nat` milliseconds; handlers take
  the current time `now` as an explicit argument.
* The random id generator (`MemStorage.generateId`) is determinized as a
  counter `gen` threaded through the store state; only freshness matters.
* The persistence layer is the in-memory store (`MemStorage`): entity maps
  become association lists, `Map.get` becomes `List.find?` on the key field.
  `updateDocument` (present only on `DatabaseStorage`, where the second of
  the two definitions wins at runtime) is the point update by id that also
  refreshes `updatedAt`.
* Each HTTP handler becomes a function `StoreState → args → ApiResult × StoreState`;
  an early `return res.status(...)` becomes an error result paired with the
  unchanged state.
-/

namespace DocShare

/-- Document status enum (schema.ts `documentStatusEnum`). -/
inductive DocStatus
  | DRAFT
  | IN_REVIEW
  | PENDING_SIGNATURE
  | APPROVED
  | REJECTED
  | ARCHIVED
  deriving DecidableEq, Repr

/-- Workflow state enum (schema.ts `workflowStateEnum`). -/
inductive WorkflowState
  | DRAFT
  | REVIEW
  | SIGN
  | APPROVAL
  | DONE
  | REJECTED
  deriving DecidableEq, Repr

/-- Task type enum (schema.ts `taskTypeEnum`). -/
inductive TaskType
  | REVIEW
  | SIGN
  | APPROVE
  deriving DecidableEq, Repr

/-- Task state enum (schema.ts `taskStateEnum`). -/
inductive TaskState
  | OPEN
  | DONE
  | CANCELLED
  deriving DecidableEq, Repr

/-- User role enum (schema.ts `userRoleEnum`). -/
inductive Role
  | ADMIN
  | OFFICER
  | REVIEWER
  | APPROVER
  | VIEWER
  deriving DecidableEq, Repr

/-- User record (schema.ts `users`), restricted to the fields the workflow
core reads: id and roles. -/
structure User where
  id : String
  roles : List Role
  deriving DecidableEq, Repr

/-- Per-document participant lists (schema.ts `documents.participants`). -/
structure Participants where
  editors : List String
  reviewers : List String
  approvers : List String
  viewers : List String
  deriving DecidableEq, Repr

/-- Empty participant lists, the `MemStorage.createDocument` default. -/
def Participants.empty : Participants :=
  { editors := [], reviewers := [], approvers := [], viewers := [] }

/-- Document record (schema.ts `documents`), restricted to the fields the
workflow core reads and writes. -/
structure Document where
  id : String
  title : String
  content : String
  ownerUid : String
  status : DocStatus
  currentVersionId : Option String
  participants : Participants
  createdAt : Nat
  updatedAt : Nat
  deriving DecidableEq, Repr

/-- One workflow history entry (schema.ts `workflows.history` element:
`{at, byUid, action, meta?}`; `at` is spelled `atMs` because `at` is a Lean
keyword; the opaque `meta` payload is modelled as an optional string). -/
structure HistoryEntry where
  atMs : Nat
  byUid : String
  action : String
  meta : Option String
  deriving DecidableEq, Repr

/-- Workflow record (schema.ts `workflows`). -/
structure Workflow where
  id : String
  docId : String
  state : WorkflowState
  history : List HistoryEntry
  createdAt : Nat
  updatedAt : Nat
  deriving DecidableEq, Repr

/-- Task record (schema.ts `tasks`). -/
structure Task where
  id : String
  type : TaskType
  docId : String
  workflowId : String
  state : TaskState
  assignedTo : List String
  createdAt : Nat
  doneAt : Option Nat
  notes : Option String
  deriving DecidableEq, Repr

/-- Document version record (schema.ts `documentVersions`), restricted to the
fields the version-numbering logic reads. -/
structure DocumentVersion where
  id : String
  docId : String
  versionNumber : String
  createdBy : String
  fileName : String
  createdAt : Nat
  deriving DecidableEq, Repr

/-- Audit log entry (schema.ts `auditLogs`), restricted to actor, action and
target id. -/
structure AuditLog where
  id : String
  actorUid : String
  action : String
  targetId : String
  timestamp : Nat
  deriving DecidableEq, Repr

/-- Office login session (schema.ts `officeLogins`). -/
structure OfficeLogin where
  id : String
  officeId : String
  sessionToken : String
  isActive : Bool
  expiresAt : Nat
  deriving DecidableEq, Repr

/-- The in-memory store (`MemStorage` private maps), as association lists,
plus the determinized id counter. -/
structure StoreState where
  gen : Nat
  users : List User
  documents : List Document
  documentVersions : List DocumentVersion
  workflows : List Workflow
  tasks : List Task
  auditLogs : List AuditLog
  deriving DecidableEq, Repr

/-- Embeds `MemStorage.generateId`, determinized by the `gen` counter. -/
def generateId (s : StoreState) : String × StoreState :=
  ( "id" ++ toString s.gen, { s with gen := s.gen + 1 })

/-- Embeds `MemStorage.getUser`. -/
def getUser (s : StoreState) (uid : String) : Option User :=
  s.users.find? (fun u => u.id == uid)

/-- Embeds `MemStorage.getDocument`. -/
def getDocument (s : StoreState) (docId : String) : Option Document :=
  s.documents.find? (fun d => d.id == docId)

/-- Embeds `MemStorage.getWorkflow`: find by `docId`. -/
def getWorkflow (s : StoreState) (docId : String) : Option Workflow :=
  s.workflows.find? (fun w => w.docId == docId)

/-- Embeds `MemStorage.getDocumentVersions`: filter by `docId`, sort by `createdAt`
descending (JS `sort` is stable, matched by `List.mergeSort`). -/
def getDocumentVersions (s : StoreState) (docId : String) : List DocumentVersion :=
  (s.documentVersions.filter (fun v => v.docId == docId)).mergeSort
    (fun a b => b.createdAt ≤ a.createdAt)

/-- routes.ts `canAccessDocument`: `!user → false`; ADMIN, owner, or member of
any of the four participant lists. -/
def canAccessDocument (doc : Document) : Option User → Bool
  | none => false
  | some user =>
      user.roles.contains Role.ADMIN
      || doc.ownerUid == user.id
      || (doc.participants.editors ++ doc.participants.reviewers
          ++ doc.participants.approvers ++ doc.participants.viewers).contains user.id

/-- routes.ts `canEditDocument`: `!user → false`; ADMIN, owner, or editor. -/
def canEditDocument (doc : Document) : Option User → Bool
  | none => false
  | some user =>
      user.roles.contains Role.ADMIN
      || doc.ownerUid == user.id
      || doc.participants.editors.contains user.id

/-- routes.ts `canReviewDocument`: `!user → false`; ADMIN or reviewer. -/
def canReviewDocument (doc : Document) : Option User → Bool
  | none => false
  | some user =>
      user.roles.contains Role.ADMIN
      || doc.participants.reviewers.contains user.id

/-- routes.ts `canApproveDocument`: `!user → false`; ADMIN, role APPROVER, or
listed approver. -/
def canApproveDocument (doc : Document) : Option User → Bool
  | none => false
  | some user =>
      user.roles.contains Role.ADMIN
      || user.roles.contains Role.APPROVER
      || doc.participants.approvers.contains user.id

/-- JS falsiness of the optional string `req.body.reason` (`!reason`): missing
or empty ⇒ falsy. -/
def strFalsy : Option String → Bool
  | none => true
  | some r => r == ""

/-- The JS expression parseInt of the text before the first dot of a
version-number string (split on dot, first piece), at the character level:
the characters before the first dot, read as a decimal number. The handler only ever stores numbers of the shape
`"<digits>.0"`, on which this agrees exactly with JS `parseInt`; the `else 0`
branch (JS would give NaN) is unreachable for numbers produced by the version
handler. -/
def intPart (v : String) : Nat :=
  let cs := v.data.takeWhile (fun c => c != '.')
  if cs ≠ [] ∧ cs.all (fun c => c.isDigit) then
    cs.foldl (fun acc c => acc * 10 + (c.toNat - 48)) 0
  else 0

/-- Result of a route handler: `ok` = the 2xx response, the error
constructors carry the HTTP status they embed (404 / 403 / 401 / 400) and the
response message. -/
inductive ApiResult
  | ok
  | notFound (msg : String)
  | forbidden (msg : String)
  | unauthorized (msg : String)
  | badRequest (msg : String)
  deriving DecidableEq, Repr

/-- Embeds `DatabaseStorage.updateDocument` (the second definition, the one in force
at runtime) called with `{status}`: point update by id, refreshing
`updatedAt`. -/
def updateDocumentStatus (s : StoreState) (docId : String) (st : DocStatus)
    (now : Nat) : StoreState :=
  { s with documents := s.documents.map fun d =>
      if d.id == docId then { d with status := st, updatedAt := now } else d }

/-- Embeds `updateDocument` called with title, content and updatedAt by the PATCH
handler. -/
def updateDocumentText (s : StoreState) (docId title content : String)
    (now : Nat) : StoreState :=
  { s with documents := s.documents.map fun d =>
      if d.id == docId then { d with title := title, content := content, updatedAt := now } else d }

/-- Embeds `updateDocument` called with currentVersionId by the version handler. -/
def updateDocumentCurrentVersion (s : StoreState) (docId versionId : String)
    (now : Nat) : StoreState :=
  { s with documents := s.documents.map fun d =>
      if d.id == docId then { d with currentVersionId := some versionId, updatedAt := now } else d }

/-- Embeds `MemStorage.updateWorkflow` called with state and history: merge and
refresh `updatedAt`. -/
def updateWorkflowIn (s : StoreState) (wid : String) (st : WorkflowState)
    (h : List HistoryEntry) (now : Nat) : StoreState :=
  { s with workflows := s.workflows.map fun w =>
      if w.id == wid then { w with state := st, history := h, updatedAt := now } else w }

/-- Embeds `MemStorage.createAuditLog` (route handlers pass actor, action, target
document id). -/
def addAudit (s : StoreState) (actorUid action targetId : String)
    (now : Nat) : StoreState :=
  let p := generateId s
  { p.2 with auditLogs := p.2.auditLogs
      ++ [{ id := p.1, actorUid := actorUid, action := action,
            targetId := targetId, timestamp := now }] }

/-- The `for (const reviewerId of document.participants.reviewers)` loop in
the submit handler: one `storage.createTask` call per reviewer, each task
`{type: REVIEW, docId, workflowId, assignedTo: [reviewerId]}`, with
`MemStorage.createTask` defaulting `state` to OPEN and `doneAt`/`notes` to
null. -/
def createTasksLoop (s : StoreState) (docId wid : String) (now : Nat) :
    List String → StoreState
  | [] => s
  | r :: rest =>
      let p := generateId s
      createTasksLoop
        { p.2 with tasks := p.2.tasks
            ++ [{ id := p.1, type := TaskType.REVIEW, docId := docId,
                  workflowId := wid, state := TaskState.OPEN,
                  assignedTo := [r], createdAt := now, doneAt := none,
                  notes := none }] }
        docId wid now rest

/-- The task list produced by `createTasksLoop` starting from counter `g`:
used to state what the loop appends. -/
def reviewTasks (g : Nat) (docId wid : String) (now : Nat) :
    List String → List Task
  | [] => []
  | r :: rest =>
      { id := "id" ++ toString g, type := TaskType.REVIEW, docId := docId,
        workflowId := wid, state := TaskState.OPEN, assignedTo := [r],
        createdAt := now, doneAt := none, notes := none }
      :: reviewTasks (g + 1) docId wid now rest

/-- The approve handler task-completion loop: `storage.getTasks` for the
acting user with state OPEN, filtered to this document, then each task
updated via `MemStorage.updateTask` to state DONE with doneAt = now and
notes = the supplied notes, defaulting to the word Approved when falsy. -/
def completeTasks (ts : List Task) (s : StoreState) (now : Nat)
    (notes : String) : StoreState :=
  ts.foldl
    (fun acc t =>
      { acc with tasks := acc.tasks.map fun u =>
          if u.id == t.id then
            { u with state := TaskState.DONE, doneAt := some now, notes := some notes }
          else u })
    s

/-- PATCH /api/documents/:id (routes.ts lines 148-179). Note the inline
permission check `document.ownerUid !== userId &&
!document.participants?.editors?.includes(userId)`: unlike `canEditDocument`
it does not grant ADMIN. -/
def patchDocument (s : StoreState) (userId docId title content : String)
    (now : Nat) : ApiResult × StoreState :=
  match getDocument s docId with
  | none => (ApiResult.notFound "Document not found", s)
  | some doc =>
      if doc.ownerUid != userId && !doc.participants.editors.contains userId then
        (ApiResult.forbidden "Access denied", s)
      else if !([DocStatus.DRAFT, DocStatus.REJECTED].contains doc.status) then
        (ApiResult.badRequest "Document cannot be edited in current state", s)
      else
        (ApiResult.ok, updateDocumentText s docId title content now)

/-- POST /api/documents/:id/submit (routes.ts lines 250-317). -/
def submitDocument (s : StoreState) (userId docId : String) (now : Nat) :
    ApiResult × StoreState :=
  match getDocument s docId with
  | none => (ApiResult.notFound "Document not found", s)
  | some doc =>
      if doc.status != DocStatus.DRAFT then
        (ApiResult.badRequest "Document must be in DRAFT status", s)
      else if !(canEditDocument doc (getUser s userId)) then
        (ApiResult.forbidden "Access denied", s)
      else
        let s1 := updateDocumentStatus s docId DocStatus.IN_REVIEW now
        let step : String × StoreState := match getWorkflow s1 docId with
          | none => ("", s1)
          | some w =>
              (w.id, updateWorkflowIn s1 w.id WorkflowState.REVIEW
                (w.history ++ [{ atMs := now, byUid := userId,
                                 action := "SUBMIT_FOR_REVIEW", meta := none }]) now)
        let s3 := createTasksLoop step.2 docId step.1 now doc.participants.reviewers
        (ApiResult.ok, addAudit s3 userId "SUBMIT_FOR_REVIEW" docId now)

/-- POST /api/documents/:id/approve (routes.ts lines 319-386). `notes` is
`req.body.notes`, `meta` the opaque `req.body` recorded in the history entry.
There is no document-status guard in the source: only `canApproveDocument`. -/
def approveDocument (s : StoreState) (userId docId : String)
    (notes meta : Option String) (now : Nat) : ApiResult × StoreState :=
  match getDocument s docId with
  | none => (ApiResult.notFound "Document not found", s)
  | some doc =>
      if !(canApproveDocument doc (getUser s userId)) then
        (ApiResult.forbidden "Access denied", s)
      else
        let s1 := updateDocumentStatus s docId DocStatus.APPROVED now
        let s2 := match getWorkflow s1 docId with
          | none => s1
          | some w =>
              updateWorkflowIn s1 w.id WorkflowState.DONE
                (w.history ++ [{ atMs := now, byUid := userId,
                                 action := "APPROVE", meta := meta }]) now
        let mine := (s2.tasks.filter fun t =>
            t.assignedTo.contains userId && t.state == TaskState.OPEN).filter
          (fun t => t.docId == docId)
        let notesVal := match notes with
          | none => "Approved"
          | some n => if n == "" then "Approved" else n
        let s3 := completeTasks mine s2 now notesVal
        (ApiResult.ok, addAudit s3 userId "APPROVE_DOCUMENT" docId now)

/-- POST /api/documents/:id/reject (routes.ts lines 388-446). The `!reason`
validation runs before the document is even fetched. -/
def rejectDocument (s : StoreState) (userId docId : String)
    (reason : Option String) (now : Nat) : ApiResult × StoreState :=
  if strFalsy reason then
    (ApiResult.badRequest "Rejection reason is required", s)
  else
    match getDocument s docId with
    | none => (ApiResult.notFound "Document not found", s)
    | some doc =>
        if !(canApproveDocument doc (getUser s userId))
            && !(canReviewDocument doc (getUser s userId)) then
          (ApiResult.forbidden "Access denied", s)
        else
          let s1 := updateDocumentStatus s docId DocStatus.REJECTED now
          let s2 := match getWorkflow s1 docId with
            | none => s1
            | some w =>
                updateWorkflowIn s1 w.id WorkflowState.REJECTED
                  (w.history ++ [{ atMs := now, byUid := userId,
                                   action := "REJECT", meta := reason }]) now
          (ApiResult.ok, addAudit s2 userId "REJECT_DOCUMENT" docId now)

/-- Request body of POST /api/documents after `insertDocumentSchema.parse`.
The zod insert schema (schema.ts lines 323-328) omits id / createdAt /
updatedAt / currentVersionId but keeps `status` and `participants` as
optional fields, so a caller-supplied status survives validation; `ownerUid`
is overwritten with the caller id by the route before parsing. -/
structure CreateDocBody where
  title : String
  content : Option String
  status : Option DocStatus
  participants : Option Participants
  deriving DecidableEq, Repr

/-- POST /api/documents (routes.ts lines 115-146) composed with
`MemStorage.createDocument` (storage.ts lines 602-622, note
the status-or-DRAFT default) and `MemStorage.createWorkflow`
(storage.ts lines 742-756: state DRAFT, empty history). -/
def postDocuments (s : StoreState) (userId : String) (body : CreateDocBody)
    (now : Nat) : ApiResult × StoreState :=
  let p := generateId s
  let doc : Document :=
    { id := p.1, title := body.title, content := body.content.getD "",
      ownerUid := userId, status := body.status.getD DocStatus.DRAFT,
      currentVersionId := none,
      participants := body.participants.getD Participants.empty,
      createdAt := now, updatedAt := now }
  let s1 := { p.2 with documents := p.2.documents ++ [doc] }
  let q := generateId s1
  let wf : Workflow :=
    { id := q.1, docId := doc.id, state := WorkflowState.DRAFT,
      history := [], createdAt := now, updatedAt := now }
  let s2 := { q.2 with workflows := q.2.workflows ++ [wf] }
  (ApiResult.ok, addAudit s2 userId "DOCUMENT_CREATED" doc.id now)

/-- POST /api/documents/:id/versions (routes.ts lines 182-247), file-present
path, composed with `MemStorage.createDocumentVersion`. -/
def postVersion (s : StoreState) (userId docId fileName : String)
    (now : Nat) : ApiResult × StoreState :=
  match getDocument s docId with
  | none => (ApiResult.notFound "Document not found", s)
  | some doc =>
      if !(canEditDocument doc (getUser s userId)) then
        (ApiResult.forbidden "Access denied", s)
      else
        let versions := getDocumentVersions s docId
        let newVersionNumber := match versions with
          | [] => "1.0"
          | latest :: _ => toString (intPart latest.versionNumber + 1) ++ ".0"
        let p := generateId s
        let v : DocumentVersion :=
          { id := p.1, docId := docId, versionNumber := newVersionNumber,
            createdBy := userId, fileName := fileName, createdAt := now }
        let s1 := { p.2 with documentVersions := p.2.documentVersions ++ [v] }
        let s2 := updateDocumentCurrentVersion s1 docId v.id now
        (ApiResult.ok, addAudit s2 userId "VERSION_UPLOADED" docId now)

/-- Embeds `MemStorage.validateOfficeSession` (storage.ts lines 1066-1072): the
session map keyed by token becomes `find?` on `sessionToken`; the check is
`!login || !login.isActive || new Date() > login.expiresAt`. -/
def validateOfficeSession (logins : List OfficeLogin) (token : String)
    (now : Nat) : Option OfficeLogin :=
  match logins.find? (fun l => l.sessionToken == token) with
  | none => none
  | some l => if !l.isActive || decide (l.expiresAt < now) then none else some l

/-- The `validateOfficeSession` express middleware (routes.ts lines 761-775),
token-present path: any validation failure yields the single generic 401. -/
def officeSessionGuard (logins : List OfficeLogin) (token : String)
    (now : Nat) : ApiResult :=
  match validateOfficeSession logins token now with
  | none => ApiResult.unauthorized "Invalid or expired office session"
  | some _ => ApiResult.ok

/-- The participant list a uid can be added to. -/
inductive PKind
  | editors
  | reviewers
  | approvers
  | viewers
  deriving DecidableEq, Repr

/-- Adding one uid to one of the four participant lists. -/
def addParticipant (p : Participants) : PKind → String → Participants
  | PKind.editors, u => { p with editors := u :: p.editors }
  | PKind.reviewers, u => { p with reviewers := u :: p.reviewers }
  | PKind.approvers, u => { p with approvers := u :: p.approvers }
  | PKind.viewers, u => { p with viewers := u :: p.viewers }

/-! Helper lemmas about the store operations. -/

/-- The function `List.find?` commutes with a map that does not change the tested predicate. -/
theorem find?_map_pred {α : Type} (f : α → α) (p : α → Bool) (l : List α)
    (h : ∀ x, p (f x) = p x) :
    (l.map f).find? p = (l.find? p).map f := by
  induction l with
  | nil => rfl
  | cons a l ih =>
      cases hpa : p a with
      | true => simp [List.find?_cons, h a, hpa]
      | false => simp [List.find?_cons, h a, hpa, ih]

/-- Looking a document up after a status update: the hit is the updated
record. -/
theorem getDocument_updateDocumentStatus (s : StoreState) (docId : String)
    (st : DocStatus) (now : Nat) (d : String) :
    getDocument (updateDocumentStatus s docId st now) d =
      (getDocument s d).map
        (fun x => if x.id == docId then { x with status := st, updatedAt := now } else x) := by
  unfold getDocument updateDocumentStatus
  exact find?_map_pred _ _ _ (fun x => by cases hx : (x.id == docId) <;> simp [hx])

/-- Looking a workflow up (by doc id) after a workflow update (by workflow
id). -/
theorem getWorkflow_updateWorkflowIn (s : StoreState) (wid : String)
    (st : WorkflowState) (h : List HistoryEntry) (now : Nat) (d : String) :
    getWorkflow (updateWorkflowIn s wid st h now) d =
      (getWorkflow s d).map
        (fun w => if w.id == wid then { w with state := st, history := h, updatedAt := now } else w) := by
  unfold getWorkflow updateWorkflowIn
  exact find?_map_pred _ _ _ (fun w => by cases hw : (w.id == wid) <;> simp [hw])

/-- The loop `createTasksLoop` appends exactly the `reviewTasks` list and bumps the id
counter; it touches no other store field. -/
theorem createTasksLoop_eq (docId wid : String) (now : Nat)
    (rs : List String) (s : StoreState) :
    createTasksLoop s docId wid now rs =
      { s with gen := s.gen + rs.length,
               tasks := s.tasks ++ reviewTasks s.gen docId wid now rs } := by
  induction rs generalizing s with
  | nil => simp [createTasksLoop, reviewTasks]
  | cons r rest ih =>
      simp only [createTasksLoop, reviewTasks, generateId, ih]
      simp [Nat.add_comm, Nat.add_left_comm, Nat.add_assoc]

/-- The fold `completeTasks` only rewrites the task list. -/
theorem completeTasks_fields (ts : List Task) (s : StoreState) (now : Nat)
    (notes : String) :
    (completeTasks ts s now notes).gen = s.gen ∧
    (completeTasks ts s now notes).documents = s.documents ∧
    (completeTasks ts s now notes).documentVersions = s.documentVersions ∧
    (completeTasks ts s now notes).workflows = s.workflows ∧
    (completeTasks ts s now notes).auditLogs = s.auditLogs := by
  induction ts generalizing s with
  | nil => simp [completeTasks]
  | cons t rest ih =>
      simpa [completeTasks] using ih _

/-- The tasks appended by the submit loop carry the reviewers, in order, as
singleton assignee lists. -/
theorem reviewTasks_map_assignedTo (g : Nat) (docId wid : String) (now : Nat)
    (rs : List String) :
    (reviewTasks g docId wid now rs).map (fun t => t.assignedTo) =
      rs.map (fun r => [r]) := by
  induction rs generalizing g with
  | nil => rfl
  | cons r rest ih => simp [reviewTasks, ih]

/-- Every task appended by the submit loop is an OPEN REVIEW task for the
submitted document. -/
theorem reviewTasks_mem (g : Nat) (docId wid : String) (now : Nat)
    (rs : List String) :
    ∀ t ∈ reviewTasks g docId wid now rs,
      t.type = TaskType.REVIEW ∧ t.state = TaskState.OPEN ∧ t.docId = docId := by
  induction rs generalizing g with
  | nil => intro t ht; cases ht
  | cons r rest ih =>
      intro t ht
      simp only [reviewTasks, List.mem_cons] at ht
      rcases ht with rfl | ht
      · exact ⟨rfl, rfl, rfl⟩
      · exact ih _ t ht

/-- Writing an audit entry does not move documents. -/
theorem getDocument_addAudit (s : StoreState) (a b t : String) (n : Nat)
    (d : String) : getDocument (addAudit s a b t n) d = getDocument s d := rfl

/-- Writing an audit entry does not move workflows. -/
theorem getWorkflow_addAudit (s : StoreState) (a b t : String) (n : Nat)
    (d : String) : getWorkflow (addAudit s a b t n) d = getWorkflow s d := rfl

/-- Writing an audit entry does not move tasks. -/
theorem tasks_addAudit (s : StoreState) (a b t : String) (n : Nat) :
    (addAudit s a b t n).tasks = s.tasks := rfl

/-- A document status update does not move workflows. -/
theorem getWorkflow_updateDocumentStatus (s : StoreState) (docId : String)
    (st : DocStatus) (now : Nat) (d : String) :
    getWorkflow (updateDocumentStatus s docId st now) d = getWorkflow s d := rfl

/-- A workflow update does not move documents. -/
theorem getDocument_updateWorkflowIn (s : StoreState) (wid : String)
    (st : WorkflowState) (h : List HistoryEntry) (now : Nat) (d : String) :
    getDocument (updateWorkflowIn s wid st h now) d = getDocument s d := rfl

/-- Completing tasks does not move documents. -/
theorem getDocument_completeTasks (ts : List Task) (s : StoreState)
    (now : Nat) (notes : String) (d : String) :
    getDocument (completeTasks ts s now notes) d = getDocument s d := by
  unfold getDocument
  rw [(completeTasks_fields ts s now notes).2.1]

/-- Completing tasks does not move workflows. -/
theorem getWorkflow_completeTasks (ts : List Task) (s : StoreState)
    (now : Nat) (notes : String) (d : String) :
    getWorkflow (completeTasks ts s now notes) d = getWorkflow s d := by
  unfold getWorkflow
  rw [(completeTasks_fields ts s now notes).2.2.2.1]

/-- Creating review tasks does not move documents. -/
theorem getDocument_createTasksLoop (s : StoreState) (docId wid : String)
    (now : Nat) (rs : List String) (d : String) :
    getDocument (createTasksLoop s docId wid now rs) d = getDocument s d := by
  unfold getDocument
  rw [createTasksLoop_eq]

/-- Creating review tasks does not move workflows. -/
theorem getWorkflow_createTasksLoop (s : StoreState) (docId wid : String)
    (now : Nat) (rs : List String) (d : String) :
    getWorkflow (createTasksLoop s docId wid now rs) d = getWorkflow s d := by
  unfold getWorkflow
  rw [createTasksLoop_eq]

/-! Concrete fixtures used by witnesses and counterexamples. -/

/-- A user holding only the ADMIN role, neither owner nor participant of the
sample documents. -/
def userAdmin : User := { id := "admin1", roles := [Role.ADMIN] }

/-- The owner of the sample documents, with no global roles. -/
def userOwner : User := { id := "owner1", roles := [] }

/-- A reviewer of the sample documents, with no global roles. -/
def userRev : User := { id := "rev1", roles := [] }

/-- Sample participant lists: no editors, one reviewer, one approver. -/
def partsBase : Participants :=
  { editors := [], reviewers := ["rev1"], approvers := ["app1"], viewers := [] }

/-- A DRAFT document owned by owner1. -/
def docDraft : Document :=
  { id := "d1", title := "Q3 Report", content := "", ownerUid := "owner1",
    status := DocStatus.DRAFT, currentVersionId := none,
    participants := partsBase, createdAt := 0, updatedAt := 0 }

/-- The same document after an approval. -/
def docApproved : Document := { docDraft with status := DocStatus.APPROVED }

/-- The paired workflow of `docDraft`, still untouched. -/
def wfBase : Workflow :=
  { id := "w1", docId := "d1", state := WorkflowState.DRAFT, history := [],
    createdAt := 0, updatedAt := 0 }

/-- The paired workflow after one approval: state DONE, one APPROVE entry. -/
def wfDone : Workflow :=
  { id := "w1", docId := "d1", state := WorkflowState.DONE,
    history := [{ atMs := 1, byUid := "admin1", action := "APPROVE", meta := none }],
    createdAt := 0, updatedAt := 1 }

/-- Store holding the DRAFT document with its untouched workflow. -/
def stDraft : StoreState :=
  { gen := 0, users := [userAdmin, userOwner, userRev],
    documents := [docDraft], documentVersions := [], workflows := [wfBase],
    tasks := [], auditLogs := [] }

/-- Store holding the already-APPROVED document with its completed
workflow. -/
def stApproved : StoreState :=
  { gen := 5, users := [userAdmin, userOwner, userRev],
    documents := [docApproved], documentVersions := [], workflows := [wfDone],
    tasks := [], auditLogs := [] }

/-- A prior "1.0" version of `docDraft`, and the store holding it. -/
def ver1 : DocumentVersion :=
  { id := "v1", docId := "d1", versionNumber := "1.0", createdBy := "owner1",
    fileName := "a.pdf", createdAt := 10 }

/-- Store with exactly one prior version of the DRAFT document. -/
def stOneVersion : StoreState := { stDraft with documentVersions := [ver1] }

/-- An active session that expires at time 100. -/
def lBoundary : OfficeLogin :=
  { id := "l1", officeId := "NYC001", sessionToken := "tok", isActive := true,
    expiresAt := 100 }

/-- An active session that expired at time 10. -/
def lExpired : OfficeLogin :=
  { id := "l2", officeId := "NYC001", sessionToken := "tokE", isActive := true,
    expiresAt := 10 }

/-- A store with no entities at all. -/
def emptyStore : StoreState :=
  { gen := 0, users := [], documents := [], documentVersions := [],
    workflows := [], tasks := [], auditLogs := [] }

/-! Claim theorems. -/

/-- C3: for every existing document whose status is not DRAFT, submit fails
with the state-conflict error (400) and returns the store completely
unchanged: no document, workflow, history, or task mutation. -/
theorem submit_nondraft_conflict
    (s : StoreState) (userId docId : String) (now : Nat) (doc : Document)
    (hdoc : getDocument s docId = some doc)
    (hst : doc.status ≠ DocStatus.DRAFT) :
    submitDocument s userId docId now =
      (ApiResult.badRequest "Document must be in DRAFT status", s) := by
  unfold submitDocument
  rw [hdoc]
  simp [bne_iff_ne, hst]

/-- Witness for C3: submit on the APPROVED document fails with the conflict
error and leaves the store untouched. -/
theorem submit_nondraft_conflict_witness :
    getDocument stApproved "d1" = some docApproved ∧
    docApproved.status ≠ DocStatus.DRAFT ∧
    submitDocument stApproved "owner1" "d1" 7 =
      (ApiResult.badRequest "Document must be in DRAFT status", stApproved) :=
  ⟨by decide, by decide,
    submit_nondraft_conflict stApproved "owner1" "d1" 7 docApproved
      (by decide) (by decide)⟩

/-- C4: reject with a missing or empty reason fails validation (400) before
any mutation: the returned store is the input store, so document status,
workflow state, workflow history and audit logs are all unchanged. -/
theorem reject_missing_reason_no_mutation
    (s : StoreState) (userId docId : String) (reason : Option String)
    (now : Nat) (h : strFalsy reason = true) :
    rejectDocument s userId docId reason now =
      (ApiResult.badRequest "Rejection reason is required", s) := by
  unfold rejectDocument
  simp [h]

/-- Witness for C4: rejecting with an empty-string reason fails validation
and leaves the store untouched. -/
theorem reject_missing_reason_no_mutation_witness :
    strFalsy (some "") = true ∧
    rejectDocument stApproved "admin1" "d1" (some "") 3 =
      (ApiResult.badRequest "Rejection reason is required", stApproved) :=
  ⟨by decide,
    reject_missing_reason_no_mutation stApproved "admin1" "d1" (some "") 3
      (by decide)⟩

/-- C10: in the submit handler the DRAFT guard runs before the authorization
check: every non-DRAFT document yields the 400 conflict error for every
caller, and the 403 authorization error is reachable only when the document
is in DRAFT. -/
theorem submit_guard_order (s : StoreState) (userId docId : String)
    (now : Nat) :
    (∀ doc, getDocument s docId = some doc → doc.status ≠ DocStatus.DRAFT →
      submitDocument s userId docId now =
        (ApiResult.badRequest "Document must be in DRAFT status", s)) ∧
    (∀ msg, (submitDocument s userId docId now).1 = ApiResult.forbidden msg →
      ∃ doc, getDocument s docId = some doc ∧ doc.status = DocStatus.DRAFT) := by
  constructor
  · intro doc hdoc hst
    unfold submitDocument
    rw [hdoc]
    simp [bne_iff_ne, hst]
  · intro msg hmsg
    unfold submitDocument at hmsg
    cases hdoc : getDocument s docId with
    | none => rw [hdoc] at hmsg; exact absurd hmsg (by simp)
    | some doc =>
        rw [hdoc] at hmsg
        by_cases hst : doc.status = DocStatus.DRAFT
        · exact ⟨doc, rfl, hst⟩
        · simp [bne_iff_ne, hst] at hmsg

/-- Witness for C10: a caller who is not even allowed to edit still receives
the 400 conflict error, not 403, on a non-DRAFT document. -/
theorem submit_guard_order_witness :
    canEditDocument docApproved (getUser stApproved "rev1") = false ∧
    submitDocument stApproved "rev1" "d1" 7 =
      (ApiResult.badRequest "Document must be in DRAFT status", stApproved) :=
  ⟨by decide,
    (submit_guard_order stApproved "rev1" "d1" 7).1 docApproved
      (by decide) (by decide)⟩

/-- C9: canAccess is monotonic in the participant lists: a true verdict stays
true after adding any uid to any of the four lists. -/
theorem canAccessDocument_monotone
    (doc : Document) (u : Option User) (k : PKind) (uid : String)
    (h : canAccessDocument doc u = true) :
    canAccessDocument
      { doc with participants := addParticipant doc.participants k uid } u
      = true := by
  cases u with
  | none => simp [canAccessDocument] at h
  | some user =>
      cases k <;> simp_all [canAccessDocument, addParticipant] <;> tauto

/-- Witness for C9: the reviewer keeps access after a stranger is added to
the viewers list. -/
theorem canAccessDocument_monotone_witness :
    canAccessDocument docDraft (some userRev) = true ∧
    canAccessDocument
      { docDraft with
        participants := addParticipant docDraft.participants PKind.viewers "zz" }
      (some userRev) = true :=
  ⟨by decide,
    canAccessDocument_monotone docDraft (some userRev) PKind.viewers "zz"
      (by decide)⟩

/-- Counterexample to C7 as stated: a caller-supplied status survives
creation — the created document has status is APPROVED, not DRAFT. -/
theorem create_document_status_honored_cex :
    ((postDocuments emptyStore "u1"
        { title := "T", content := none, status := some DocStatus.APPROVED,
          participants := none } 3).2.documents.map (fun d => d.status)) =
      [DocStatus.APPROVED] := by decide

/-- C7 (amended): creation succeeds with ownerUid = the caller and a paired
workflow in state DRAFT with empty history; the document status defaults to
DRAFT only when the caller supplies none — a caller-supplied status is stored
as-is. -/
theorem create_document_effects (s : StoreState) (userId : String)
    (body : CreateDocBody) (now : Nat) :
    (postDocuments s userId body now).1 = ApiResult.ok ∧
    ∃ d wf,
      (postDocuments s userId body now).2.documents = s.documents ++ [d] ∧
      (postDocuments s userId body now).2.workflows = s.workflows ++ [wf] ∧
      d.ownerUid = userId ∧
      d.status = body.status.getD DocStatus.DRAFT ∧
      wf.docId = d.id ∧ wf.state = WorkflowState.DRAFT ∧ wf.history = [] :=
  ⟨rfl, _, _, rfl, rfl, rfl, rfl, rfl, rfl, rfl⟩

/-- Counterexample to C2 as stated: an ADMIN who is neither owner nor editor
satisfies canEdit on a DRAFT document, yet the PATCH handler rejects the edit
with 403 (its inline permission check ignores the ADMIN role). -/
theorem patch_admin_denied_cex :
    canEditDocument docDraft (getUser stDraft "admin1") = true ∧
    docDraft.status = DocStatus.DRAFT ∧
    patchDocument stDraft "admin1" "d1" "t2" "c2" 5 =
      (ApiResult.forbidden "Access denied", stDraft) := by decide

/-- C2 (amended): editing is permitted exactly when the caller is the owner
or in the editors list (the ADMIN role is not honoured) and the status is
DRAFT or REJECTED; a failed owner/editor check yields 403 with no mutation,
and a passing check with any other status yields 400 with no mutation. -/
theorem patch_edit_characterization
    (s : StoreState) (userId docId title content : String) (now : Nat)
    (doc : Document) (hdoc : getDocument s docId = some doc) :
    (¬(doc.ownerUid = userId ∨ userId ∈ doc.participants.editors) →
        patchDocument s userId docId title content now =
          (ApiResult.forbidden "Access denied", s)) ∧
    ((doc.ownerUid = userId ∨ userId ∈ doc.participants.editors) →
      doc.status ∉ [DocStatus.DRAFT, DocStatus.REJECTED] →
        patchDocument s userId docId title content now =
          (ApiResult.badRequest "Document cannot be edited in current state", s)) ∧
    ((doc.ownerUid = userId ∨ userId ∈ doc.participants.editors) →
      doc.status ∈ [DocStatus.DRAFT, DocStatus.REJECTED] →
        (patchDocument s userId docId title content now).1 = ApiResult.ok) := by
  refine ⟨?_, ?_, ?_⟩
  · intro hP
    push_neg at hP
    unfold patchDocument
    rw [hdoc]
    simp [bne_iff_ne, hP.1, hP.2]
  · intro hP hs
    unfold patchDocument
    rw [hdoc]
    simp [bne_iff_ne, hs]
    tauto
  · intro hP hs
    unfold patchDocument
    rw [hdoc]
    dsimp only
    rw [if_neg (fun hcon => by simp [bne_iff_ne] at hcon ; exact hP.elim hcon.1 hcon.2)]
    rw [if_neg (fun hcon => by simp at hcon hs ; tauto)]

/-- Witness for C2 (amended): the owner edits the DRAFT document
successfully. -/
theorem patch_edit_characterization_witness :
    docDraft.ownerUid = "owner1" ∧
    docDraft.status ∈ [DocStatus.DRAFT, DocStatus.REJECTED] ∧
    (patchDocument stDraft "owner1" "d1" "t2" "c2" 5).1 = ApiResult.ok :=
  ⟨rfl, by decide,
    (patch_edit_characterization stDraft "owner1" "d1" "t2" "c2" 5 docDraft
        (by decide)).2.2 (Or.inl rfl) (by decide)⟩

/-- Counterexample to C1 as stated: on a document that is already APPROVED, a
second approve call by an authorized user succeeds (200) and appends a second
APPROVE entry to the workflow history, instead of failing and leaving the
workflow unchanged. -/
theorem approve_approved_second_call_succeeds_cex :
    docApproved.status = DocStatus.APPROVED ∧
    (approveDocument stApproved "admin1" "d1" none none 9).1 = ApiResult.ok ∧
    ((approveDocument stApproved "admin1" "d1" none none 9).2.workflows.map
        (fun w => w.history.length)) = [2] := by decide

/-- C1 (amended): the approve handler checks only authorization, never the
document status: for every existing document and caller with canApprove —
including a document already APPROVED — approve succeeds, sets the status to
APPROVED, sets the workflow state to DONE and appends one more APPROVE entry
to the history. -/
theorem approve_no_status_guard
    (s : StoreState) (userId docId : String) (notes meta : Option String)
    (now : Nat) (doc : Document) (w : Workflow)
    (hdoc : getDocument s docId = some doc)
    (happ : canApproveDocument doc (getUser s userId) = true)
    (hw : getWorkflow s docId = some w) :
    (approveDocument s userId docId notes meta now).1 = ApiResult.ok ∧
    getDocument (approveDocument s userId docId notes meta now).2 docId =
      some { doc with status := DocStatus.APPROVED, updatedAt := now } ∧
    getWorkflow (approveDocument s userId docId notes meta now).2 docId =
      some { w with state := WorkflowState.DONE,
                    history := w.history ++
                      [{ atMs := now, byUid := userId, action := "APPROVE",
                         meta := meta }],
                    updatedAt := now } := by
  have hid : doc.id = docId := by
    have h := hdoc
    unfold getDocument at h
    have h2 := List.find?_some h
    simpa using h2
  unfold approveDocument
  rw [hdoc]
  dsimp only
  rw [if_neg (by simp [happ])]
  rw [getWorkflow_updateDocumentStatus, hw]
  dsimp only
  refine ⟨rfl, ?_, ?_⟩
  · rw [getDocument_addAudit, getDocument_completeTasks,
      getDocument_updateWorkflowIn, getDocument_updateDocumentStatus, hdoc]
    simp [hid]
  · rw [getWorkflow_addAudit, getWorkflow_completeTasks,
      getWorkflow_updateWorkflowIn, getWorkflow_updateDocumentStatus, hw]
    simp

/-- Witness for C1 (amended): the concrete second approve on the APPROVED
sample document. -/
theorem approve_no_status_guard_witness :
    (approveDocument stApproved "admin1" "d1" none none 9).1 = ApiResult.ok ∧
    getDocument (approveDocument stApproved "admin1" "d1" none none 9).2 "d1" =
      some { docApproved with status := DocStatus.APPROVED, updatedAt := 9 } ∧
    getWorkflow (approveDocument stApproved "admin1" "d1" none none 9).2 "d1" =
      some { wfDone with state := WorkflowState.DONE,
                         history := wfDone.history ++
                           [{ atMs := 9, byUid := "admin1", action := "APPROVE",
                              meta := none }],
                         updatedAt := 9 } :=
  approve_no_status_guard stApproved "admin1" "d1" none none 9 docApproved
    wfDone (by decide) (by decide) (by decide)

/-- C5: a successful submit on a DRAFT document by an authorized caller sets
the document status to IN_REVIEW, the workflow state to REVIEW, appends
exactly one SUBMIT_FOR_REVIEW history entry carrying the caller uid while
preserving all prior entries, and appends exactly one OPEN REVIEW task per
reviewer, each assigned to that single reviewer. -/
theorem submit_draft_success_effects
    (s : StoreState) (userId docId : String) (now : Nat) (doc : Document)
    (w : Workflow)
    (hdoc : getDocument s docId = some doc)
    (hst : doc.status = DocStatus.DRAFT)
    (hedit : canEditDocument doc (getUser s userId) = true)
    (hw : getWorkflow s docId = some w) :
    (submitDocument s userId docId now).1 = ApiResult.ok ∧
    getDocument (submitDocument s userId docId now).2 docId =
      some { doc with status := DocStatus.IN_REVIEW, updatedAt := now } ∧
    getWorkflow (submitDocument s userId docId now).2 docId =
      some { w with state := WorkflowState.REVIEW,
                    history := w.history ++
                      [{ atMs := now, byUid := userId,
                         action := "SUBMIT_FOR_REVIEW", meta := none }],
                    updatedAt := now } ∧
    ∃ newTasks,
      (submitDocument s userId docId now).2.tasks = s.tasks ++ newTasks ∧
      newTasks.map (fun t => t.assignedTo) =
        doc.participants.reviewers.map (fun r => [r]) ∧
      ∀ t ∈ newTasks,
        t.type = TaskType.REVIEW ∧ t.state = TaskState.OPEN ∧ t.docId = docId := by
  have hid : doc.id = docId := by
    have h := hdoc
    unfold getDocument at h
    have h2 := List.find?_some h
    simpa using h2
  unfold submitDocument
  rw [hdoc]
  dsimp only
  rw [if_neg (by simp [bne_iff_ne, hst])]
  rw [if_neg (by simp [hedit])]
  rw [getWorkflow_updateDocumentStatus, hw]
  dsimp only
  refine ⟨rfl, ?_, ?_, ?_⟩
  · rw [getDocument_addAudit, getDocument_createTasksLoop,
      getDocument_updateWorkflowIn, getDocument_updateDocumentStatus, hdoc]
    simp [hid]
  · rw [getWorkflow_addAudit, getWorkflow_createTasksLoop,
      getWorkflow_updateWorkflowIn, getWorkflow_updateDocumentStatus, hw]
    simp
  · refine ⟨reviewTasks s.gen docId w.id now doc.participants.reviewers, ?_,
      reviewTasks_map_assignedTo _ _ _ _ _, reviewTasks_mem _ _ _ _ _⟩
    rw [tasks_addAudit, createTasksLoop_eq]
    rfl

/-- Witness for C5: owner1 submits the sample DRAFT document; reviewer rev1
gets exactly one OPEN REVIEW task. -/
theorem submit_draft_success_effects_witness :
    (submitDocument stDraft "owner1" "d1" 7).1 = ApiResult.ok ∧
    getDocument (submitDocument stDraft "owner1" "d1" 7).2 "d1" =
      some { docDraft with status := DocStatus.IN_REVIEW, updatedAt := 7 } ∧
    getWorkflow (submitDocument stDraft "owner1" "d1" 7).2 "d1" =
      some { wfBase with state := WorkflowState.REVIEW,
                         history := wfBase.history ++
                           [{ atMs := 7, byUid := "owner1",
                              action := "SUBMIT_FOR_REVIEW", meta := none }],
                         updatedAt := 7 } ∧
    ∃ newTasks,
      (submitDocument stDraft "owner1" "d1" 7).2.tasks =
        stDraft.tasks ++ newTasks ∧
      newTasks.map (fun t => t.assignedTo) =
        docDraft.participants.reviewers.map (fun r => [r]) ∧
      ∀ t ∈ newTasks,
        t.type = TaskType.REVIEW ∧ t.state = TaskState.OPEN ∧ t.docId = "d1" :=
  submit_draft_success_effects stDraft "owner1" "d1" 7 docDraft wfBase
    (by decide) (by decide) (by decide) (by decide)

/-- C8: adding a version to a document with no prior versions stores
versionNumber "1.0"; otherwise the new number is the integer part of the
number of the most recent version (the head of getDocumentVersions, newest first
by createdAt) plus one, suffixed with ".0". -/
theorem version_numbering_rule
    (s : StoreState) (userId docId fileName : String) (now : Nat)
    (doc : Document)
    (hdoc : getDocument s docId = some doc)
    (hedit : canEditDocument doc (getUser s userId) = true) :
    ∃ v, (postVersion s userId docId fileName now).2.documentVersions =
          s.documentVersions ++ [v] ∧
      v.versionNumber =
        (match getDocumentVersions s docId with
         | [] => "1.0"
         | latest :: _ => toString (intPart latest.versionNumber + 1) ++ ".0") := by
  unfold postVersion
  rw [hdoc]
  dsimp only
  rw [if_neg (by simp [hedit])]
  exact ⟨_, rfl, rfl⟩

/-- Witness for C8: a second upload on top of an existing "1.0" version is
numbered "2.0". -/
theorem version_numbering_rule_witness :
    ∃ v, (postVersion stOneVersion "owner1" "d1" "b.pdf" 20).2.documentVersions =
          stOneVersion.documentVersions ++ [v] ∧
      v.versionNumber = "2.0" := by
  obtain ⟨v, h1, h2⟩ :=
    version_numbering_rule stOneVersion "owner1" "d1" "b.pdf" 20 docDraft
      (by decide) (by decide)
  refine ⟨v, h1, ?_⟩
  rw [h2]
  have hv : getDocumentVersions stOneVersion "d1" = [ver1] := by
    unfold getDocumentVersions
    have hfil : (stOneVersion.documentVersions.filter
        (fun v => v.docId == "d1")) = [ver1] := by decide
    rw [hfil, List.mergeSort_singleton]
  rw [hv]
  decide

/-- Counterexample to C6 as stated: at the instant now = expiresAt the code
still validates the session (`new Date() > expiresAt` is false at equality),
while the claim requires failure for now ≥ expiresAt. -/
theorem office_session_expiry_boundary_cex :
    100 ≥ lBoundary.expiresAt ∧
    validateOfficeSession [lBoundary] "tok" 100 = some lBoundary := by decide

/-- C6 (amended): validation succeeds exactly when the token is found, its
isActive flag is true, and now ≤ expiresAt (inclusive boundary); all three
failure causes — unknown token, inactive session, expired session — produce
the identical generic 401 response through the middleware. -/
theorem office_session_validation_amended
    (logins : List OfficeLogin) (token : String) (now : Nat) :
    (∀ l, validateOfficeSession logins token now = some l ↔
        (logins.find? (fun x => x.sessionToken == token) = some l ∧
         l.isActive = true ∧ now ≤ l.expiresAt)) ∧
    (logins.find? (fun x => x.sessionToken == token) = none →
        officeSessionGuard logins token now =
          ApiResult.unauthorized "Invalid or expired office session") ∧
    (∀ l, logins.find? (fun x => x.sessionToken == token) = some l →
        l.isActive = false →
        officeSessionGuard logins token now =
          ApiResult.unauthorized "Invalid or expired office session") ∧
    (∀ l, logins.find? (fun x => x.sessionToken == token) = some l →
        l.expiresAt < now →
        officeSessionGuard logins token now =
          ApiResult.unauthorized "Invalid or expired office session") := by
  refine ⟨?_, ?_, ?_, ?_⟩
  · intro l
    unfold validateOfficeSession
    cases hf : logins.find? (fun x => x.sessionToken == token) with
    | none => simp
    | some l0 =>
        dsimp only
        constructor
        · intro h
          by_cases ha : l0.isActive
          · by_cases he : l0.expiresAt < now
            · rw [if_pos (by simp [he])] at h
              exact absurd h (by simp)
            · rw [if_neg (by simp [ha, he])] at h
              injection h with hh
              subst hh
              exact ⟨rfl, ha, Nat.le_of_not_lt he⟩
          · rw [if_pos (by simp [ha])] at h
            exact absurd h (by simp)
        · rintro ⟨h1, h2, h3⟩
          injection h1 with h1
          subst h1
          rw [if_neg (by simp [h2] ; omega)]
  · intro hf
    unfold officeSessionGuard validateOfficeSession
    rw [hf]
  · intro l hf ha
    unfold officeSessionGuard validateOfficeSession
    rw [hf]
    dsimp only
    rw [if_pos (by simp [ha])]
  · intro l hf he
    unfold officeSessionGuard validateOfficeSession
    rw [hf]
    dsimp only
    rw [if_pos (by simp [he])]

/-- Witness for C6 (amended): an expired token yields the generic 401. -/
theorem office_session_validation_amended_witness :
    [lExpired].find? (fun x => x.sessionToken == "tokE") = some lExpired ∧
    lExpired.expiresAt < 50 ∧
    officeSessionGuard [lExpired] "tokE" 50 =
      ApiResult.unauthorized "Invalid or expired office session" :=
  ⟨by decide, by decide,
    (office_session_validation_amended [lExpired] "tokE" 50).2.2.2 lExpired
      (by decide) (by decide)⟩

end DocShare
